import Mathlib

/-!
Verification of the aTimeLogger REST-API client (py_atimelogger.py).

The Python module is shallowly embedded: JSON values become the inductive
type JVal, Python dicts (which preserve insertion order and have unique
keys) become association lists over String, datetime values are
represented by their epoch value (whole seconds plus microseconds) and an
optional fixed-offset timezone, and the regular-expression searches of
check_response are implemented directly over character lists with the
leftmost/greedy/lazy semantics of the Python re module.
-/

set_option autoImplicit false

namespace ATimeLogger

/-- A decoded JSON value, extended with the datetime values that the
interval post-processing hook produces.  The constructor dt models a
Python datetime obtained from datetime.fromtimestamp applied to an
epoch-seconds value and an optional timezone (a fixed offset, in
minutes); a dt with no timezone models a naive datetime. -/
inductive JVal where
  | null : JVal
  | bool : Bool → JVal
  | num : Int → JVal
  | str : String → JVal
  | arr : List JVal → JVal
  | obj : List (String × JVal) → JVal
  | dt : Int → Option Int → JVal

/-- A Python dict with string keys, as an insertion-ordered association
list.  Real dicts never hold duplicate keys; lemmas that need that fact
take a Nodup hypothesis on the key list. -/
abbrev Assoc := List (String × JVal)

/-- Look up a key, first occurrence (dict subscript access). -/
def lookup : Assoc → String → Option JVal
  | [], _ => none
  | (k, v) :: rest, key => if k = key then some v else lookup rest key

/-- Membership test for a key (the Python in operator on a dict). -/
def hasKey (d : Assoc) (k : String) : Bool := (lookup d k).isSome

/-- Dict item assignment: replace the value at an existing key in place,
otherwise append the new pair at the end (Python insertion order). -/
def setKey : Assoc → String → JVal → Assoc
  | [], key, v => [(key, v)]
  | (k, w) :: rest, key, v =>
      if k = key then (k, v) :: rest else (k, w) :: setKey rest key v

/-- Dict key removal (del or pop): drop the first entry with the key. -/
def eraseKey : Assoc → String → Assoc
  | [], _ => []
  | (k, w) :: rest, key =>
      if k = key then rest else (k, w) :: eraseKey rest key

/-- The key list of a dict. -/
def keys (d : Assoc) : List String := d.map Prod.fst

theorem keys_cons (k0 : String) (w : JVal) (tl : Assoc) :
    keys ((k0, w) :: tl) = k0 :: keys tl := rfl

theorem lookup_setKey_self (d : Assoc) (k : String) (v : JVal) :
    lookup (setKey d k v) k = some v := by
  induction d with
  | nil => simp [setKey, lookup]
  | cons hd tl ih =>
      obtain ⟨k0, w⟩ := hd
      by_cases h : k0 = k
      · simp [setKey, lookup, h]
      · simp [setKey, lookup, h, ih]

theorem lookup_setKey_ne (d : Assoc) (k k' : String) (v : JVal) (h : k' ≠ k) :
    lookup (setKey d k v) k' = lookup d k' := by
  have hk : k ≠ k' := Ne.symm h
  induction d with
  | nil => simp [setKey, lookup, hk]
  | cons hd tl ih =>
      obtain ⟨k0, w⟩ := hd
      by_cases h0 : k0 = k
      · subst h0
        simp [setKey, lookup, hk]
      · simp [setKey, lookup, h0, ih]

theorem lookup_eraseKey_ne (d : Assoc) (k k' : String) (h : k' ≠ k) :
    lookup (eraseKey d k) k' = lookup d k' := by
  have hk : k ≠ k' := Ne.symm h
  induction d with
  | nil => simp [eraseKey]
  | cons hd tl ih =>
      obtain ⟨k0, w⟩ := hd
      by_cases h0 : k0 = k
      · subst h0
        simp [eraseKey, lookup, hk]
      · simp [eraseKey, lookup, h0, ih]

theorem lookup_eq_none_of_not_mem (d : Assoc) (k : String)
    (h : k ∉ keys d) : lookup d k = none := by
  induction d with
  | nil => rfl
  | cons hd tl ih =>
      obtain ⟨k0, w⟩ := hd
      rw [keys_cons] at h
      have h1 : ¬k0 = k := by
        intro hh
        exact h (by simp [hh])
      have h2 : k ∉ keys tl := by
        intro hh
        exact h (by simp [hh])
      simp [lookup, h1, ih h2]

theorem lookup_eraseKey_self (d : Assoc) (k : String)
    (h : (keys d).Nodup) : lookup (eraseKey d k) k = none := by
  induction d with
  | nil => rfl
  | cons hd tl ih =>
      obtain ⟨k0, w⟩ := hd
      rw [keys_cons] at h
      simp only [List.nodup_cons] at h
      by_cases h0 : k0 = k
      · subst h0
        simp only [eraseKey, if_pos rfl]
        exact lookup_eq_none_of_not_mem tl k0 h.1
      · simp [eraseKey, lookup, h0, ih h.2]

theorem hasKey_eraseKey_imp (d : Assoc) (k k' : String)
    (h : hasKey (eraseKey d k) k' = true) : hasKey d k' = true := by
  induction d with
  | nil => simpa [eraseKey] using h
  | cons hd tl ih =>
      obtain ⟨k0, w⟩ := hd
      by_cases h0 : k0 = k
      · simp only [eraseKey, h0, if_pos rfl] at h
        by_cases h1 : k0 = k'
        · simp [hasKey, lookup, h1]
        · simpa [hasKey, lookup, h1] using h
      · by_cases h1 : k0 = k'
        · simp [hasKey, lookup, h1]
        · simp only [eraseKey, if_neg h0] at h
          simp only [hasKey, lookup, if_neg h1] at h ⊢
          exact ih h

theorem keys_setKey_of_mem (d : Assoc) (k : String) (v : JVal)
    (h : hasKey d k = true) : keys (setKey d k v) = keys d := by
  induction d with
  | nil => simp [hasKey, lookup] at h
  | cons hd tl ih =>
      obtain ⟨k0, w⟩ := hd
      by_cases h0 : k0 = k
      · simp [setKey, keys, h0]
      · simp only [hasKey, lookup, if_neg h0] at h
        simp [setKey, keys, h0]
        simpa [keys] using ih h

theorem hasKey_setKey (d : Assoc) (k k' : String) (v : JVal) :
    hasKey (setKey d k v) k' = (k' = k || hasKey d k') := by
  by_cases h : k' = k
  · subst h
    simp [hasKey, lookup_setKey_self]
  · simp [hasKey, lookup_setKey_ne d k k' v h, h]

/-- An input accepted by prepare_timestamp and usable as a bound of a
datetime range.  A str input is a valid ISO-8601 string, represented by
the datetime that datetime.fromisoformat returns for it; a dt input is a
datetime value.  Either datetime is represented by its exact epoch value,
written as whole seconds s plus microseconds m with m below 1000000 (so
the epoch-seconds value is the rational s + m / 1000000 and its floor is
s), together with its optional timezone (a fixed utcoffset in minutes).
An intlike input is a SupportsInt value carrying an integer. -/
inductive TimeArg where
  | str : Int → Nat → Option Int → TimeArg
  | dt : Int → Nat → Option Int → TimeArg
  | intlike : Int → TimeArg

/-- The exact epoch-seconds value of a datetime given as floor seconds
plus microseconds, as returned by the timestamp method. -/
def tsRat (s : Int) (m : Nat) : ℚ := (s : ℚ) + (m : ℚ) / 1000000

/-- The Python int() conversion on an exact numeric value: truncation
toward zero. -/
def pyInt (q : ℚ) : Int := if 0 ≤ q then ⌊q⌋ else ⌈q⌉

/-- Embedding of prepare_timestamp: an ISO string or datetime input is
converted via its timestamp value and int(); an integer-like input is
converted by int() directly.  The unsupported-type branch raising
TypeError is outside the TimeArg domain. -/
def prepare_timestamp : TimeArg → Int
  | TimeArg.str s m _ => pyInt (tsRat s m)
  | TimeArg.dt s m _ => pyInt (tsRat s m)
  | TimeArg.intlike n => n

/-- Python truthiness of a TimeArg value: a valid ISO string is nonempty
hence truthy, a datetime is always truthy, and an integer is truthy
exactly when it is nonzero. -/
def isTruthy : TimeArg → Bool
  | TimeArg.str _ _ _ => true
  | TimeArg.dt _ _ _ => true
  | TimeArg.intlike n => decide (n ≠ 0)

/-- The tzinfo extracted from one bound of a datetime range, as computed
for tz1 and tz2 in the body of extract_tzinfo_4decode: the tzinfo of the
parsed string for a str bound, the tzinfo attribute for a datetime bound,
and None otherwise. -/
def tzOfBound : Option TimeArg → Option Int
  | some (TimeArg.str _ _ tz) => tz
  | some (TimeArg.dt _ _ tz) => tz
  | _ => none

/-- Embedding of the private method extract_tzinfo_4decode (spelled with
a leading underscore in the source).  The warnings.warn side effect is
made explicit: the second component of the result is true exactly when
the warning about differing timezones is emitted. -/
def extract_tzinfo_4decode (range : Option TimeArg × Option TimeArg) :
    Option Int × Bool :=
  let tz1 := tzOfBound range.1
  let tz2 := tzOfBound range.2
  if tz1.isSome && tz2.isSome then
    (tz1, decide (tz1 ≠ tz2))
  else
    (tz1.orElse fun _ => tz2, false)

/-- The class attribute LIMIT_MAX of aTimeLogger. -/
def LIMIT_MAX : Int := 0x7FFFFFFF

/-- One conditional assignment of prepare_params of the form: if the
bound is truthy, set the given key to prepare_timestamp of the bound. -/
def addTimeParam (p : Assoc) (key : String) (b : Option TimeArg) : Assoc :=
  match b with
  | some t => if isTruthy t then setKey p key (JVal.num (prepare_timestamp t)) else p
  | none => p

/-- The conditional assignment of the types parameter: if the iterable of
type guids is truthy (present and nonempty), set the comma-joined
string. -/
def addTypesParam (p : Assoc) (types : Option (List String)) : Assoc :=
  match types with
  | some ts =>
      if ts.isEmpty then p
      else setKey p "types" (JVal.str (String.intercalate "," ts))
  | none => p

/-- The conditional assignment of the state parameter: if the state is
truthy (present and a nonempty string), pass it through. -/
def addStateParam (p : Assoc) (state : Option String) : Assoc :=
  match state with
  | some s => if s = "" then p else setKey p "state" (JVal.str s)
  | none => p

/-- The dict update method: assign every pair of the second dict into the
first, in order. -/
def update (p : Assoc) (kwargs : Assoc) : Assoc :=
  kwargs.foldl (fun a kv => setKey a kv.1 kv.2) p

/-- Embedding of prepare_params.  The dict literal holding limit, offset
and order is built first, then the conditional assignments for from, to,
types and state run in source order, and finally the caller-supplied
kwargs are merged by dict update. -/
def prepare_params (offset limit : Int) (order : String)
    (range : Option TimeArg × Option TimeArg)
    (types : Option (List String)) (state : Option String)
    (kwargs : Assoc) : Assoc :=
  let params : Assoc :=
    [("limit", JVal.num limit), ("offset", JVal.num offset), ("order", JVal.str order)]
  let params := addTimeParam params "from" range.1
  let params := addTimeParam params "to" range.2
  let params := addTypesParam params types
  let params := addStateParam params state
  update params kwargs

/-- A call of prepare_params in which every argument keeps the default
value of the Python signature: offset 0, limit 100, order desc, range
(None, None), no types, no state, no kwargs. -/
def prepare_params_defaults : Assoc :=
  prepare_params 0 100 "desc" (none, none) none none []

/-- The parameter dict built by a get_intervals call that keeps the
default values of the get_intervals signature: offset 0, limit
LIMIT_MAX, range (None, None), no types, order desc. -/
def get_intervals_params_defaults : Assoc :=
  prepare_params 0 LIMIT_MAX "desc" (none, none) none none []

/-- The from branch of the object hook: when a from key is present,
replace its value by datetime.fromtimestamp of that value with the given
timezone.  The conversion requires a numeric value; on any other value
Python raises, which the embedding reports as none. -/
def hookFrom (d : Assoc) (tz : Option Int) : Option Assoc :=
  match lookup d "from" with
  | none => some d
  | some (JVal.num n) => some (setKey d "from" (JVal.dt n tz))
  | some _ => none

/-- The to branch of the object hook, identical to the from branch. -/
def hookTo (d : Assoc) (tz : Option Int) : Option Assoc :=
  match lookup d "to" with
  | none => some d
  | some (JVal.num n) => some (setKey d "to" (JVal.dt n tz))
  | some _ => none

/-- The comment branch of the object hook: when a comment key is present
and its value equals the empty string, replace it by None. -/
def hookComment (d : Assoc) : Assoc :=
  match lookup d "comment" with
  | some (JVal.str s) => if s = "" then setKey d "comment" JVal.null else d
  | _ => d

/-- The type branch of the object hook: when a type key is present, pop
it and assign the guid field of the popped object to the typeGuid key.
The popped value must be an object holding a guid key; otherwise Python
raises, which the embedding reports as none. -/
def hookType (d : Assoc) : Option Assoc :=
  match lookup d "type" with
  | none => some d
  | some (JVal.obj o) =>
      match lookup o "guid" with
      | some g => some (setKey (eraseKey d "type") "typeGuid" g)
      | none => none
  | some _ => none

/-- Embedding of the private method object_hook (spelled with a leading
underscore in the source): the four branches run in source order on the
same dict. -/
def object_hook (d : Assoc) (tz : Option Int) : Option Assoc :=
  (hookFrom d tz).bind fun d1 =>
    (hookTo d1 tz).bind fun d2 =>
      hookType (hookComment d2)

/-- Python truthiness of a decoded JSON value: None, False, zero, the
empty string, the empty list and the empty dict are falsy.  A datetime
value is always truthy. -/
def isFalsy : JVal → Bool
  | JVal.null => true
  | JVal.bool b => !b
  | JVal.num n => decide (n = 0)
  | JVal.str s => decide (s = "")
  | JVal.arr l => l.isEmpty
  | JVal.obj o => o.isEmpty
  | JVal.dt _ _ => false

/-- Embedding of decode_response, applied to the mapping returned by the
JSON decoder: when an empty-string key is present and its value is
falsy, delete that key before returning. -/
def decode_response (d : Assoc) : Assoc :=
  match lookup d "" with
  | some v => if isFalsy v then eraseKey d "" else d
  | none => d

/-- Case-insensitive character equality in the sense of the re.IGNORECASE
flag, for the ASCII patterns used by check_response. -/
def ciEq (a b : Char) : Bool :=
  a = b ||
  (decide (65 ≤ a.toNat) && decide (a.toNat ≤ 90) && decide (a.toNat + 32 = b.toNat)) ||
  (decide (65 ≤ b.toNat) && decide (b.toNat ≤ 90) && decide (b.toNat + 32 = a.toNat))

/-- Case-insensitive prefix test: the pattern chunk matches at the head
of the text. -/
def isPrefixCI : List Char → List Char → Bool
  | [], _ => true
  | _ :: _, [] => false
  | p :: ps, c :: cs => ciEq p c && isPrefixCI ps cs

/-- The capture of a greedy dot-star followed by a closing literal, run
at the current position: the longest newline-free capture after whose end
the closing literal matches.  Returns none when the closing literal is
unreachable, as for a dot that may not cross a newline. -/
def greedyTo (close : List Char) : List Char → Option (List Char)
  | [] => if close.isEmpty then some [] else none
  | c :: rest =>
      let extended :=
        if c = '\n' then none
        else (greedyTo close rest).map fun r => c :: r
      match extended with
      | some r => some r
      | none => if isPrefixCI close (c :: rest) then some [] else none

/-- The capture of a lazy dot-star followed by a closing literal, run at
the current position: the shortest newline-free capture after whose end
the closing literal matches. -/
def lazyTo (close : List Char) : List Char → Option (List Char)
  | [] => if close.isEmpty then some [] else none
  | c :: rest =>
      if isPrefixCI close (c :: rest) then some []
      else if c = '\n' then none
      else (lazyTo close rest).map fun r => c :: r

/-- re.search for a pattern of the shape opening literal, captured
dot-star (greedy or lazy), closing literal: try every start position
from the left and return the capture group of the first full match. -/
def searchCapture (greedy : Bool) (opened close : List Char) :
    List Char → Option (List Char)
  | [] => none
  | c :: rest =>
      if isPrefixCI opened (c :: rest) then
        match (if greedy then greedyTo close else lazyTo close)
            (List.drop opened.length (c :: rest)) with
        | some cap => some cap
        | none => searchCapture greedy opened close rest
      else searchCapture greedy opened close rest

/-- The title search of check_response: a greedy capture between a title
open tag and a title close tag, case-insensitive. -/
def reSearchTitle (text : String) : Option String :=
  (searchCapture true "<title>".data "</title>".data text.data).map
    fun l => String.mk l

/-- The Message search of check_response: a lazy capture after the
literal paragraph label for Message, up to a paragraph close tag. -/
def reSearchMessage (text : String) : Option String :=
  (searchCapture false "<p><b>Message</b> ".data "</p>".data text.data).map
    fun l => String.mk l

/-- The Description search of check_response: a lazy capture after the
literal paragraph label for Description, up to a paragraph close tag. -/
def reSearchDescription (text : String) : Option String :=
  (searchCapture false "<p><b>Description</b> ".data "</p>".data text.data).map
    fun l => String.mk l

/-- Model of the stdlib html.unescape restricted to the basic named and
numeric character references; replacements scan left to right and the
replacement text is not rescanned, as in the stdlib. -/
def htmlUnescapeChars : List Char → List Char
  | [] => []
  | '&' :: 'a' :: 'm' :: 'p' :: ';' :: rest => '&' :: htmlUnescapeChars rest
  | '&' :: 'l' :: 't' :: ';' :: rest => '<' :: htmlUnescapeChars rest
  | '&' :: 'g' :: 't' :: ';' :: rest => '>' :: htmlUnescapeChars rest
  | '&' :: 'q' :: 'u' :: 'o' :: 't' :: ';' :: rest =>
      Char.ofNat 34 :: htmlUnescapeChars rest
  | '&' :: '#' :: '3' :: '9' :: ';' :: rest =>
      Char.ofNat 39 :: htmlUnescapeChars rest
  | c :: rest => c :: htmlUnescapeChars rest

/-- html.unescape on strings. -/
def htmlUnescape (s : String) : String := String.mk (htmlUnescapeChars s.data)

/-- The observable parts of a requests.Response used by check_response:
the status code, the method and url of the originating request, the body
text, and the result of the json method; json is some rendered value
when the body is valid JSON and none when the json method raises
JSONDecodeError. -/
structure Response where
  status : Nat
  method : String
  url : String
  text : String
  json : Option String

/-- The requests.HTTPError raised by check_response: the message it was
built with and the response object attached through the response keyword
argument. -/
structure HTTPError where
  msg : String
  response : Response

/-- Embedding of check_response.  The except AttributeError branch fires
exactly when the title search returns no match, since only the group
call on a failed title search can raise AttributeError; the Message and
Description searches are guarded in the source.  Raising is modelled by
returning some error, returning normally by none. -/
def check_response (r : Response) : Option HTTPError :=
  if 400 ≤ r.status ∧ r.status < 600 then
    let requestInfo := r.method ++ " " ++ r.url
    match reSearchTitle r.text with
    | some title =>
        let reasons := Option.elim (reSearchMessage r.text) "" htmlUnescape
        let details := Option.elim (reSearchDescription r.text) "" htmlUnescape
        some { msg := title ++ ": " ++ reasons ++ " for " ++ requestInfo
                        ++ ".\n" ++ details,
               response := r }
    | none =>
        let errorType := if r.status < 500 then "Client Error" else "Server Error"
        let body := match r.json with
          | some j => j
          | none => r.text
        some { msg := toString r.status ++ " " ++ errorType ++ ": for "
                        ++ requestInfo ++ ".\n" ++ body,
               response := r }
  else
    none

/-- Case-sensitive prefix test, used to state substring facts about the
error messages. -/
def isPrefixAt : List Char → List Char → Bool
  | [], _ => true
  | _ :: _, [] => false
  | p :: ps, c :: cs => p = c && isPrefixAt ps cs

/-- Substring test: the needle occurs contiguously inside the
haystack. -/
def hasSubstr (needle : List Char) : List Char → Bool
  | [] => needle.isEmpty
  | c :: rest => isPrefixAt needle (c :: rest) || hasSubstr needle rest

/-- The concrete 404 HTML error response of the claim about HTML error
classification. -/
def rHtml404 : Response :=
  { status := 404
    method := "GET"
    url := "https://app.atimelogger.com/api/v2/types/g"
    text := "<title>Not Found</title><p><b>Message</b> no such guid</p>"
    json := none }

/-- The error message check_response builds for rHtml404. -/
def msgHtml404 : String :=
  "Not Found: no such guid for GET https://app.atimelogger.com/api/v2/types/g.\n"

/-- The concrete 500 response whose body is neither HTML with a title
nor valid JSON. -/
def rRaw500 : Response :=
  { status := 500
    method := "GET"
    url := "https://app.atimelogger.com/api/v2/intervals/"
    text := "oops, not json"
    json := none }

/-- The error message check_response builds for rRaw500. -/
def msgRaw500 : String :=
  "500 Server Error: for GET https://app.atimelogger.com/api/v2/intervals/.\noops, not json"

/-- C1: for every response with a status code in the 400 to 599 range
whose body matches the title regex, check_response raises an HTTPError
whose message is the title, a colon and space, the HTML-unescaped
Message paragraph (empty when its regex does not match), the literal
for, the request method and url, a period and newline, and the
HTML-unescaped Description paragraph (empty when its regex does not
match); the error carries the original response object. -/
theorem check_response_html_error (r : Response) (title : String)
    (h1 : 400 ≤ r.status) (h2 : r.status < 600)
    (ht : reSearchTitle r.text = some title) :
    check_response r =
      some { msg := title ++ ": "
                     ++ Option.elim (reSearchMessage r.text) "" htmlUnescape
                     ++ " for " ++ (r.method ++ " " ++ r.url) ++ ".\n"
                     ++ Option.elim (reSearchDescription r.text) "" htmlUnescape,
             response := r } := by
  simp [check_response, ht, h1, h2]

/-- C1 witness: on a 404 whose body holds a Not Found title and a
Message paragraph reading no such guid, the raised message contains both
Not Found and no such guid, and the error carries the response. -/
theorem check_response_html_error_witness :
    400 ≤ rHtml404.status ∧ rHtml404.status < 600 ∧
    reSearchTitle rHtml404.text = some "Not Found" ∧
    check_response rHtml404 = some { msg := msgHtml404, response := rHtml404 } ∧
    hasSubstr "Not Found".data msgHtml404.data = true ∧
    hasSubstr "no such guid".data msgHtml404.data = true :=
  ⟨by decide, by decide, by rfl,
   by rw [check_response_html_error rHtml404 "Not Found" (by decide) (by decide) (by rfl)]; rfl,
   by decide, by decide⟩

/-- C2: for every response with a status code in the 400 to 599 range
whose body does not match the title regex, check_response still raises:
the message is the status code, Client Error below 500 and Server Error
otherwise, the request method and url, and then the JSON body when the
body is valid JSON and the raw body text otherwise; the error carries
the original response object. -/
theorem check_response_fallback_error (r : Response)
    (h1 : 400 ≤ r.status) (h2 : r.status < 600)
    (ht : reSearchTitle r.text = none) :
    check_response r =
      some { msg := toString r.status ++ " "
                     ++ (if r.status < 500 then "Client Error" else "Server Error")
                     ++ ": for " ++ (r.method ++ " " ++ r.url) ++ ".\n"
                     ++ (match r.json with
                         | some j => j
                         | none => r.text),
             response := r } := by
  simp [check_response, ht, h1, h2]

/-- C2 witness: a 500 response whose body is neither HTML with a title
nor valid JSON yields a message containing Server Error and the raw body
text. -/
theorem check_response_fallback_error_witness :
    400 ≤ rRaw500.status ∧ rRaw500.status < 600 ∧
    reSearchTitle rRaw500.text = none ∧
    check_response rRaw500 = some { msg := msgRaw500, response := rRaw500 } ∧
    hasSubstr "Server Error".data msgRaw500.data = true ∧
    hasSubstr "oops, not json".data msgRaw500.data = true :=
  ⟨by decide, by decide, by rfl,
   by rw [check_response_fallback_error rRaw500 (by decide) (by decide) (by rfl)]; rfl,
   by decide, by decide⟩

/-- C10: check_response raises exactly when the status code lies in the
range 400 to 599; for any status below 400 or at least 600 it returns
normally.  The embedding is a pure function of the response, so neither
the response nor any client state changes. -/
theorem check_response_raises_iff (r : Response) :
    (check_response r).isSome = decide (400 ≤ r.status ∧ r.status < 600) := by
  by_cases h : 400 ≤ r.status ∧ r.status < 600
  · simp only [check_response, if_pos h]
    cases reSearchTitle r.text <;> simp [h]
  · simp [check_response, h]

/-- C4: decode_response removes the top-level empty-string key exactly
when it is present with a falsy value, and leaves every other key and
value unchanged.  The Nodup hypothesis encodes that a decoded JSON
mapping has unique keys. -/
theorem decode_response_strip (d : Assoc) (k : String)
    (hnd : (keys d).Nodup) (hk : k ≠ "") :
    lookup (decode_response d) k = lookup d k ∧
    lookup (decode_response d) "" =
      ((lookup d "").bind fun v => if isFalsy v then none else some v) := by
  unfold decode_response
  cases hv : lookup d "" with
  | none => simp [hv]
  | some v =>
      by_cases hf : isFalsy v = true
      · simp [hf, lookup_eraseKey_ne d "" k hk, lookup_eraseKey_self d "" hnd]
      · simp [hf, hv]

/-- The two concrete decoded bodies of the claim about the spurious
empty-string key: one with a falsy value at the empty key, one with a
truthy value there. -/
def dEmptyFalse : Assoc := [("", JVal.bool false), ("intervals", JVal.arr [])]

/-- The decoded body whose empty-string key holds a truthy value. -/
def dEmptyTrue : Assoc := [("", JVal.bool true), ("intervals", JVal.arr [])]

/-- C4 witness: the body with a false value at the empty key is
stripped, the one with a true value keeps it, and the intervals entry is
untouched in both. -/
theorem decode_response_strip_witness :
    (keys dEmptyFalse).Nodup ∧ (keys dEmptyTrue).Nodup ∧ "intervals" ≠ "" ∧
    lookup (decode_response dEmptyFalse) "intervals" = some (JVal.arr []) ∧
    lookup (decode_response dEmptyFalse) "" = none ∧
    lookup (decode_response dEmptyTrue) "intervals" = some (JVal.arr []) ∧
    lookup (decode_response dEmptyTrue) "" = some (JVal.bool true) :=
  have hf := decode_response_strip dEmptyFalse "intervals" (by decide) (by decide)
  have ht := decode_response_strip dEmptyTrue "intervals" (by decide) (by decide)
  ⟨by decide, by decide, by decide,
   Eq.trans hf.1 (by rfl), Eq.trans hf.2 (by rfl),
   Eq.trans ht.1 (by rfl), Eq.trans ht.2 (by rfl)⟩

/-- C5: the timezone used for decoding is selected from the caller
supplied datetime range exactly as the claim states: with timezone
information on both bounds the lower bound wins and the warning flag is
set exactly when the two differ; with timezone information on exactly
one bound that bound wins without a warning; with none on either the
result is None and no warning. -/
theorem extract_tzinfo_cases (lo hi : Option TimeArg) :
    ((tzOfBound lo).isSome = true → (tzOfBound hi).isSome = true →
      extract_tzinfo_4decode (lo, hi) =
        (tzOfBound lo, decide (tzOfBound lo ≠ tzOfBound hi))) ∧
    ((tzOfBound lo).isSome = true → tzOfBound hi = none →
      extract_tzinfo_4decode (lo, hi) = (tzOfBound lo, false)) ∧
    (tzOfBound lo = none → (tzOfBound hi).isSome = true →
      extract_tzinfo_4decode (lo, hi) = (tzOfBound hi, false)) ∧
    (tzOfBound lo = none → tzOfBound hi = none →
      extract_tzinfo_4decode (lo, hi) = (none, false)) := by
  unfold extract_tzinfo_4decode
  refine ⟨fun ha hb => ?_, fun ha hb => ?_, fun ha hb => ?_, fun ha hb => ?_⟩
  · simp [ha, hb]
  · obtain ⟨a, ha'⟩ := Option.isSome_iff_exists.mp ha
    simp [ha', hb, Option.orElse]
  · simp [ha, hb, Option.orElse]
  · simp [ha, hb, Option.orElse]

/-- C5 witness: with two aware bounds whose offsets differ, the lower
bound timezone is returned and the warning is emitted; with only an
upper aware bound, its timezone is returned silently. -/
theorem extract_tzinfo_cases_witness :
    (tzOfBound (some (TimeArg.dt 0 0 (some 60)))).isSome = true ∧
    (tzOfBound (some (TimeArg.dt 0 0 (some 0)))).isSome = true ∧
    extract_tzinfo_4decode
        (some (TimeArg.dt 0 0 (some 60)), some (TimeArg.dt 0 0 (some 0)))
      = (some 60, true) ∧
    tzOfBound (some (TimeArg.intlike 5)) = none ∧
    extract_tzinfo_4decode
        (some (TimeArg.intlike 5), some (TimeArg.dt 0 0 (some 0)))
      = (some 0, false) :=
  have h1 := (extract_tzinfo_cases (some (TimeArg.dt 0 0 (some 60)))
      (some (TimeArg.dt 0 0 (some 0)))).1 rfl rfl
  have h2 := (extract_tzinfo_cases (some (TimeArg.intlike 5))
      (some (TimeArg.dt 0 0 (some 0)))).2.2.1 rfl rfl
  ⟨rfl, rfl, Eq.trans h1 (by rfl), rfl, Eq.trans h2 (by rfl)⟩

/-- The from or to entry a range bound contributes to the parameter
dict, following the words of the specification as amended: the bound
must be truthy (in particular non-null), and then contributes its
normalized timestamp. -/
def timestampParam : Option TimeArg → Option JVal
  | some t =>
      if isTruthy t then some (JVal.num (prepare_timestamp t)) else none
  | none => none

theorem lookup_addTimeParam_ne (p : Assoc) (key k : String)
    (b : Option TimeArg) (hk : k ≠ key) :
    lookup (addTimeParam p key b) k = lookup p k := by
  unfold addTimeParam
  cases b with
  | none => rfl
  | some t =>
      by_cases ht : isTruthy t = true
      · simp [ht, lookup_setKey_ne p key k _ hk]
      · simp [ht]

theorem lookup_addTimeParam_self (p : Assoc) (key : String)
    (b : Option TimeArg) (hp : lookup p key = none) :
    lookup (addTimeParam p key b) key = timestampParam b := by
  unfold addTimeParam timestampParam
  cases b with
  | none => exact hp
  | some t =>
      by_cases ht : isTruthy t = true
      · simp [ht, lookup_setKey_self]
      · simp [ht, hp]

theorem lookup_addTypesParam_ne (p : Assoc) (k : String)
    (ty : Option (List String)) (hk : k ≠ "types") :
    lookup (addTypesParam p ty) k = lookup p k := by
  unfold addTypesParam
  cases ty with
  | none => rfl
  | some ts =>
      by_cases hts : ts.isEmpty = true
      · simp [hts]
      · simp [hts, lookup_setKey_ne p "types" k _ hk]

theorem lookup_addStateParam_ne (p : Assoc) (k : String)
    (st : Option String) (hk : k ≠ "state") :
    lookup (addStateParam p st) k = lookup p k := by
  unfold addStateParam
  cases st with
  | none => rfl
  | some s =>
      by_cases hs : s = ""
      · simp [hs]
      · simp [hs, lookup_setKey_ne p "state" k _ hk]

/-- C6 as amended: with no extra kwargs, the from key of the prepared
parameters is present exactly when the lower bound is truthy (non-null
and, for an integer-like bound, nonzero), in which case it holds the
normalized timestamp of that bound; the to key behaves the same way for
the upper bound.  In particular a range of (None, None) produces
neither key, and a lower bound alone produces only from. -/
theorem prepare_params_range (off lim : Int) (ord : String)
    (lo hi : Option TimeArg) (ty : Option (List String)) (st : Option String) :
    lookup (prepare_params off lim ord (lo, hi) ty st []) "from"
      = timestampParam lo ∧
    lookup (prepare_params off lim ord (lo, hi) ty st []) "to"
      = timestampParam hi := by
  unfold prepare_params update
  constructor
  · rw [List.foldl_nil,
      lookup_addStateParam_ne _ _ _ (by decide),
      lookup_addTypesParam_ne _ _ _ (by decide),
      lookup_addTimeParam_ne _ _ _ _ (by decide)]
    exact lookup_addTimeParam_self _ _ _ (by rfl)
  · rw [List.foldl_nil,
      lookup_addStateParam_ne _ _ _ (by decide),
      lookup_addTypesParam_ne _ _ _ (by decide)]
    refine lookup_addTimeParam_self _ _ _ ?_
    rw [lookup_addTimeParam_ne _ _ _ _ (by decide)]
    rfl

/-- C6 counterexample: the integer bound 0 is non-null, yet the from key
is omitted, because the source tests truthiness of the bound rather than
comparing against None. -/
theorem prepare_params_zero_bound_counterexample :
    (some (TimeArg.intlike 0)).isSome = true ∧
    lookup (prepare_params 0 100 "desc" (some (TimeArg.intlike 0), none)
        none none []) "from" = none :=
  ⟨rfl, rfl⟩

theorem hasKey_addTimeParam_mono (p : Assoc) (key k : String)
    (b : Option TimeArg) (h : hasKey p k = true) :
    hasKey (addTimeParam p key b) k = true := by
  unfold addTimeParam
  cases b with
  | none => exact h
  | some t =>
      by_cases ht : isTruthy t = true
      · simp [ht, hasKey_setKey, h]
      · simp [ht, h]

theorem hasKey_addTypesParam_mono (p : Assoc) (k : String)
    (ty : Option (List String)) (h : hasKey p k = true) :
    hasKey (addTypesParam p ty) k = true := by
  unfold addTypesParam
  cases ty with
  | none => exact h
  | some ts =>
      by_cases hts : ts.isEmpty = true
      · simp [hts, h]
      · simp [hts, hasKey_setKey, h]

theorem hasKey_addStateParam_mono (p : Assoc) (k : String)
    (st : Option String) (h : hasKey p k = true) :
    hasKey (addStateParam p st) k = true := by
  unfold addStateParam
  cases st with
  | none => exact h
  | some s =>
      by_cases hs : s = ""
      · simp [hs, h]
      · simp [hs, hasKey_setKey, h]

theorem hasKey_update_mono (kwargs : Assoc) (p : Assoc) (k : String)
    (h : hasKey p k = true) : hasKey (update p kwargs) k = true := by
  induction kwargs generalizing p with
  | nil => exact h
  | cons kv rest ih =>
      have : hasKey (setKey p kv.1 kv.2) k = true := by
        simp [hasKey_setKey, h]
      exact ih (setKey p kv.1 kv.2) this

/-- C7 as amended: the limit, offset and order keys are present in every
prepared parameter dict, whatever the arguments and extra kwargs; the
defaults of the prepare_params signature itself are offset 0, limit 100
and order desc, while the unbounded sentinel LIMIT_MAX, equal to
2147483647, is the default limit that the get_intervals and
get_activities call sites pass in. -/
theorem prepare_params_pagination (off lim : Int) (ord : String)
    (range : Option TimeArg × Option TimeArg) (ty : Option (List String))
    (st : Option String) (kwargs : Assoc) :
    hasKey (prepare_params off lim ord range ty st kwargs) "limit" = true ∧
    hasKey (prepare_params off lim ord range ty st kwargs) "offset" = true ∧
    hasKey (prepare_params off lim ord range ty st kwargs) "order" = true ∧
    lookup prepare_params_defaults "limit" = some (JVal.num 100) ∧
    lookup prepare_params_defaults "offset" = some (JVal.num 0) ∧
    lookup prepare_params_defaults "order" = some (JVal.str "desc") ∧
    lookup get_intervals_params_defaults "limit" = some (JVal.num LIMIT_MAX) ∧
    LIMIT_MAX = 2147483647 := by
  refine ⟨?_, ?_, ?_, rfl, rfl, rfl, rfl, rfl⟩ <;>
    · unfold prepare_params
      apply hasKey_update_mono
      apply hasKey_addStateParam_mono
      apply hasKey_addTypesParam_mono
      apply hasKey_addTimeParam_mono
      apply hasKey_addTimeParam_mono
      rfl

/-- C7 counterexample: a call of prepare_params in which the caller does
not supply limit uses the signature default 100, which differs from
LIMIT_MAX. -/
theorem prepare_params_default_limit_counterexample :
    lookup prepare_params_defaults "limit" = some (JVal.num 100) ∧
    (100 : Int) ≠ LIMIT_MAX :=
  ⟨rfl, by decide⟩

theorem floor_tsRat (s : Int) (m : Nat) (hm : m < 1000000) :
    ⌊tsRat s m⌋ = s := by
  unfold tsRat
  rw [Int.floor_eq_iff]
  constructor
  · have h0 : (0 : ℚ) ≤ (m : ℚ) / 1000000 := by positivity
    linarith
  · have h1 : (m : ℚ) / 1000000 < 1 := by
      rw [div_lt_one (by norm_num)]
      exact_mod_cast hm
    linarith

/-- C8 as amended: prepare_timestamp applies int(), which truncates
toward zero; for every string or datetime input whose epoch value is
non-negative, and for every input whose epoch value is a whole number of
seconds, the result equals the floor of the epoch-seconds value, and an
integer-like input comes back unchanged.  The pre-epoch fractional case
where truncation and floor differ is the counterexample below. -/
theorem prepare_timestamp_floor (s : Int) (m : Nat) (tz : Option Int) (n : Int)
    (hm : m < 1000000) :
    (0 ≤ s → prepare_timestamp (TimeArg.str s m tz) = ⌊tsRat s m⌋) ∧
    (0 ≤ s → prepare_timestamp (TimeArg.dt s m tz) = ⌊tsRat s m⌋) ∧
    (m = 0 → prepare_timestamp (TimeArg.str s m tz) = ⌊tsRat s m⌋) ∧
    (m = 0 → prepare_timestamp (TimeArg.dt s m tz) = ⌊tsRat s m⌋) ∧
    prepare_timestamp (TimeArg.intlike n) = n := by
  have hnn : ∀ hs : 0 ≤ s, pyInt (tsRat s m) = ⌊tsRat s m⌋ := by
    intro hs
    have : (0 : ℚ) ≤ tsRat s m := by
      unfold tsRat
      have h0 : (0 : ℚ) ≤ (m : ℚ) / 1000000 := by positivity
      have h1 : (0 : ℚ) ≤ (s : ℚ) := by exact_mod_cast hs
      linarith
    simp [pyInt, this]
  have hz : ∀ hm0 : m = 0, pyInt (tsRat s m) = ⌊tsRat s m⌋ := by
    intro hm0
    subst hm0
    have he : tsRat s 0 = (s : ℚ) := by
      unfold tsRat
      norm_num
    rw [he]
    unfold pyInt
    by_cases hs : (0 : ℚ) ≤ (s : ℚ)
    · simp [hs]
    · simp [hs, Int.ceil_intCast, Int.floor_intCast]
  exact ⟨fun hs => hnn hs, fun hs => hnn hs, fun h0 => hz h0, fun h0 => hz h0, rfl⟩

/-- C8 witness: a post-epoch fractional timestamp is floored, and an
integer-like input is returned unchanged. -/
theorem prepare_timestamp_floor_witness :
    500000 < 1000000 ∧ (0 : Int) ≤ 1700000000 ∧
    prepare_timestamp (TimeArg.str 1700000000 500000 none)
      = ⌊tsRat 1700000000 500000⌋ ∧
    prepare_timestamp (TimeArg.str 1700000000 500000 none) = 1700000000 ∧
    prepare_timestamp (TimeArg.intlike 42) = 42 :=
  have h := prepare_timestamp_floor 1700000000 500000 none 42 (by decide)
  ⟨by decide, by decide, h.1 (by decide),
   Eq.trans (h.1 (by decide)) (floor_tsRat 1700000000 500000 (by decide)),
   h.2.2.2.2⟩

/-- C8 counterexample: the ISO string denoting the instant half a second
before the epoch has epoch-seconds value minus one half; its floor is
minus one, but prepare_timestamp returns int() of it, which truncates
toward zero and yields 0. -/
theorem prepare_timestamp_trunc_counterexample :
    prepare_timestamp (TimeArg.str (-1) 500000 (some 0)) = 0 ∧
    ⌊tsRat (-1) 500000⌋ = -1 ∧ (0 : Int) ≠ -1 := by
  refine ⟨?_, floor_tsRat (-1) 500000 (by decide), by decide⟩
  show pyInt (tsRat (-1) 500000) = 0
  have he : tsRat (-1) 500000 = (-1 : ℚ) / 2 := by
    unfold tsRat
    norm_num
  rw [he]
  unfold pyInt
  rw [if_neg (by norm_num)]
  norm_num

theorem hasKey_iff_mem (d : Assoc) (k : String) :
    hasKey d k = true ↔ k ∈ keys d := by
  induction d with
  | nil => simp [hasKey, lookup, keys]
  | cons hd tl ih =>
      obtain ⟨k0, w⟩ := hd
      rw [keys_cons]
      by_cases h0 : k0 = k
      · subst h0
        simp [hasKey, lookup]
      · simp only [hasKey, lookup, if_neg h0, List.mem_cons]
        rw [show ((lookup tl k).isSome = true ↔ k ∈ keys tl) from ih]
        constructor
        · exact fun h => Or.inr h
        · rintro (h | h)
          · exact absurd h.symm h0
          · exact h

theorem hookFrom_lookup_self (d : Assoc) (tz : Option Int) (d1 : Assoc)
    (n : Int) (h : hookFrom d tz = some d1)
    (hn : lookup d "from" = some (JVal.num n)) :
    lookup d1 "from" = some (JVal.dt n tz) := by
  unfold hookFrom at h
  rw [hn] at h
  obtain rfl := Option.some.inj h
  exact lookup_setKey_self d "from" (JVal.dt n tz)

theorem hookFrom_frame (d : Assoc) (tz : Option Int) (d1 : Assoc)
    (k : String) (h : hookFrom d tz = some d1) (hk : k ≠ "from") :
    lookup d1 k = lookup d k := by
  unfold hookFrom at h
  cases hv : lookup d "from" with
  | none =>
      rw [hv] at h
      obtain rfl := Option.some.inj h
      rfl
  | some v =>
      rw [hv] at h
      cases v with
      | num n =>
          obtain rfl := Option.some.inj h
          exact lookup_setKey_ne d "from" k _ hk
      | null => cases h
      | bool b => cases h
      | str s => cases h
      | arr l => cases h
      | obj o => cases h
      | dt a b => cases h

theorem hookFrom_keys (d : Assoc) (tz : Option Int) (d1 : Assoc)
    (h : hookFrom d tz = some d1) : keys d1 = keys d := by
  unfold hookFrom at h
  cases hv : lookup d "from" with
  | none =>
      rw [hv] at h
      obtain rfl := Option.some.inj h
      rfl
  | some v =>
      rw [hv] at h
      cases v with
      | num n =>
          obtain rfl := Option.some.inj h
          exact keys_setKey_of_mem d "from" _ (by simp [hasKey, hv])
      | null => cases h
      | bool b => cases h
      | str s => cases h
      | arr l => cases h
      | obj o => cases h
      | dt a b => cases h

theorem hookTo_lookup_self (d : Assoc) (tz : Option Int) (d1 : Assoc)
    (n : Int) (h : hookTo d tz = some d1)
    (hn : lookup d "to" = some (JVal.num n)) :
    lookup d1 "to" = some (JVal.dt n tz) := by
  unfold hookTo at h
  rw [hn] at h
  obtain rfl := Option.some.inj h
  exact lookup_setKey_self d "to" (JVal.dt n tz)

theorem hookTo_frame (d : Assoc) (tz : Option Int) (d1 : Assoc)
    (k : String) (h : hookTo d tz = some d1) (hk : k ≠ "to") :
    lookup d1 k = lookup d k := by
  unfold hookTo at h
  cases hv : lookup d "to" with
  | none =>
      rw [hv] at h
      obtain rfl := Option.some.inj h
      rfl
  | some v =>
      rw [hv] at h
      cases v with
      | num n =>
          obtain rfl := Option.some.inj h
          exact lookup_setKey_ne d "to" k _ hk
      | null => cases h
      | bool b => cases h
      | str s => cases h
      | arr l => cases h
      | obj o => cases h
      | dt a b => cases h

theorem hookTo_keys (d : Assoc) (tz : Option Int) (d1 : Assoc)
    (h : hookTo d tz = some d1) : keys d1 = keys d := by
  unfold hookTo at h
  cases hv : lookup d "to" with
  | none =>
      rw [hv] at h
      obtain rfl := Option.some.inj h
      rfl
  | some v =>
      rw [hv] at h
      cases v with
      | num n =>
          obtain rfl := Option.some.inj h
          exact keys_setKey_of_mem d "to" _ (by simp [hasKey, hv])
      | null => cases h
      | bool b => cases h
      | str s => cases h
      | arr l => cases h
      | obj o => cases h
      | dt a b => cases h

theorem hookComment_lookup_self (d : Assoc)
    (hc : lookup d "comment" = some (JVal.str "")) :
    lookup (hookComment d) "comment" = some JVal.null := by
  unfold hookComment
  rw [hc]
  simp [lookup_setKey_self]

theorem hookComment_frame (d : Assoc) (k : String) (hk : k ≠ "comment") :
    lookup (hookComment d) k = lookup d k := by
  unfold hookComment
  cases hv : lookup d "comment" with
  | none => rfl
  | some v =>
      cases v with
      | str s =>
          by_cases hs : s = ""
          · simp [hs, lookup_setKey_ne d "comment" k _ hk]
          · simp [hs]
      | null => rfl
      | bool b => rfl
      | num n => rfl
      | arr l => rfl
      | obj o => rfl
      | dt a b => rfl

theorem hookComment_keys (d : Assoc) : keys (hookComment d) = keys d := by
  unfold hookComment
  cases hv : lookup d "comment" with
  | none => rfl
  | some v =>
      cases v with
      | str s =>
          by_cases hs : s = ""
          · simp [hs]
            exact keys_setKey_of_mem d "comment" _ (by simp [hasKey, hv, hs])
          · simp [hs]
      | null => rfl
      | bool b => rfl
      | num n => rfl
      | arr l => rfl
      | obj o => rfl
      | dt a b => rfl

theorem hookType_frame (d : Assoc) (d1 : Assoc) (k : String)
    (h : hookType d = some d1) (hk1 : k ≠ "type") (hk2 : k ≠ "typeGuid") :
    lookup d1 k = lookup d k := by
  unfold hookType at h
  cases hv : lookup d "type" with
  | none =>
      rw [hv] at h
      obtain rfl := Option.some.inj h
      rfl
  | some v =>
      rw [hv] at h
      cases v with
      | obj o =>
          have h' : (match lookup o "guid" with
              | some g => some (setKey (eraseKey d "type") "typeGuid" g)
              | none => (none : Option Assoc)) = some d1 := h
          cases hg : lookup o "guid" with
          | none => rw [hg] at h'; cases h'
          | some g =>
              rw [hg] at h'
              obtain rfl := Option.some.inj h'
              rw [lookup_setKey_ne _ "typeGuid" k _ hk2]
              exact lookup_eraseKey_ne d "type" k hk1
      | null => cases h
      | bool b => cases h
      | num n => cases h
      | str s => cases h
      | arr l => cases h
      | dt a b => cases h

theorem hookType_removes (d : Assoc) (d1 : Assoc) (o : Assoc)
    (h : hookType d = some d1) (ho : lookup d "type" = some (JVal.obj o))
    (hnd : (keys d).Nodup) :
    lookup d1 "type" = none ∧ lookup d1 "typeGuid" = lookup o "guid" := by
  unfold hookType at h
  rw [ho] at h
  have h' : (match lookup o "guid" with
      | some g => some (setKey (eraseKey d "type") "typeGuid" g)
      | none => (none : Option Assoc)) = some d1 := h
  cases hg : lookup o "guid" with
  | none => rw [hg] at h'; cases h'
  | some g =>
      rw [hg] at h'
      obtain rfl := Option.some.inj h'
      constructor
      · rw [lookup_setKey_ne _ "typeGuid" "type" _ (by decide)]
        exact lookup_eraseKey_self d "type" hnd
      · rw [lookup_setKey_self]

theorem hookType_hasKey_imp (d : Assoc) (d1 : Assoc) (k : String)
    (h : hookType d = some d1) (hk : k ≠ "typeGuid")
    (hd1 : hasKey d1 k = true) : hasKey d k = true := by
  unfold hookType at h
  cases hv : lookup d "type" with
  | none =>
      rw [hv] at h
      obtain rfl := Option.some.inj h
      exact hd1
  | some v =>
      rw [hv] at h
      cases v with
      | obj o =>
          have h' : (match lookup o "guid" with
              | some g => some (setKey (eraseKey d "type") "typeGuid" g)
              | none => (none : Option Assoc)) = some d1 := h
          cases hg : lookup o "guid" with
          | none => rw [hg] at h'; cases h'
          | some g =>
              rw [hg] at h'
              obtain rfl := Option.some.inj h'
              rw [hasKey_setKey] at hd1
              simp only [hk, decide_eq_true_eq, Bool.false_or] at hd1
              have hd1' : hasKey (eraseKey d "type") k = true := by
                simpa [hk] using hd1
              exact hasKey_eraseKey_imp d "type" k hd1'
      | null => cases h
      | bool b => cases h
      | num n => cases h
      | str s => cases h
      | arr l => cases h
      | dt a b => cases h

theorem hookType_hasKey_mono (d : Assoc) (d1 : Assoc) (k : String)
    (h : hookType d = some d1) (hk : k ≠ "type")
    (hd : hasKey d k = true) : hasKey d1 k = true := by
  unfold hookType at h
  cases hv : lookup d "type" with
  | none =>
      rw [hv] at h
      obtain rfl := Option.some.inj h
      exact hd
  | some v =>
      rw [hv] at h
      cases v with
      | obj o =>
          have h' : (match lookup o "guid" with
              | some g => some (setKey (eraseKey d "type") "typeGuid" g)
              | none => (none : Option Assoc)) = some d1 := h
          cases hg : lookup o "guid" with
          | none => rw [hg] at h'; cases h'
          | some g =>
              rw [hg] at h'
              obtain rfl := Option.some.inj h'
              rw [hasKey_setKey]
              by_cases hkg : k = "typeGuid"
              · simp [hkg]
              · have : hasKey (eraseKey d "type") k = true := by
                  unfold hasKey
                  rw [lookup_eraseKey_ne d "type" k hk]
                  exact hd
                simp [this]
      | null => cases h
      | bool b => cases h
      | num n => cases h
      | str s => cases h
      | arr l => cases h
      | dt a b => cases h

theorem object_hook_unpack (d : Assoc) (tz : Option Int) (d' : Assoc)
    (h : object_hook d tz = some d') :
    ∃ d1 d2, hookFrom d tz = some d1 ∧ hookTo d1 tz = some d2 ∧
      hookType (hookComment d2) = some d' := by
  unfold object_hook at h
  cases h1 : hookFrom d tz with
  | none => rw [h1] at h; cases h
  | some d1 =>
      rw [h1] at h
      have h2' : (hookTo d1 tz).bind (fun d2 => hookType (hookComment d2))
          = some d' := h
      cases h2 : hookTo d1 tz with
      | none => rw [h2] at h2'; cases h2'
      | some d2 =>
          rw [h2] at h2'
          exact ⟨d1, d2, rfl, h2, h2'⟩

/-- C3 as amended: whenever the hook succeeds on a dict with unique
keys, a present numeric from field becomes a datetime carrying the
derived epoch value and the supplied timezone (timezone-aware exactly
when a timezone is supplied, naive otherwise), a present numeric to
field likewise, a comment field equal to the empty string becomes null,
and a present type field (an object carrying a guid) is removed and
replaced by a typeGuid field holding that nested identifier. -/
theorem object_hook_fields (d : Assoc) (tz : Option Int) (d' : Assoc)
    (nf nt : Int) (o : Assoc)
    (hnd : (keys d).Nodup) (h : object_hook d tz = some d') :
    (lookup d "from" = some (JVal.num nf) →
      lookup d' "from" = some (JVal.dt nf tz)) ∧
    (lookup d "to" = some (JVal.num nt) →
      lookup d' "to" = some (JVal.dt nt tz)) ∧
    (lookup d "comment" = some (JVal.str "") →
      lookup d' "comment" = some JVal.null) ∧
    (lookup d "type" = some (JVal.obj o) →
      lookup d' "type" = none ∧ lookup d' "typeGuid" = lookup o "guid") := by
  obtain ⟨d1, d2, h1, h2, h3⟩ := object_hook_unpack d tz d' h
  have hk1 := hookFrom_keys d tz d1 h1
  have hk2 := hookTo_keys d1 tz d2 h2
  have hk3 := hookComment_keys d2
  refine ⟨?_, ?_, ?_, ?_⟩
  · intro hf
    rw [hookType_frame (hookComment d2) d' "from" h3 (by decide) (by decide),
        hookComment_frame d2 "from" (by decide),
        hookTo_frame d1 tz d2 "from" h2 (by decide)]
    exact hookFrom_lookup_self d tz d1 nf h1 hf
  · intro hto
    rw [hookType_frame (hookComment d2) d' "to" h3 (by decide) (by decide),
        hookComment_frame d2 "to" (by decide)]
    refine hookTo_lookup_self d1 tz d2 nt h2 ?_
    rw [hookFrom_frame d tz d1 "to" h1 (by decide)]
    exact hto
  · intro hc
    rw [hookType_frame (hookComment d2) d' "comment" h3 (by decide) (by decide)]
    refine hookComment_lookup_self d2 ?_
    rw [hookTo_frame d1 tz d2 "comment" h2 (by decide),
        hookFrom_frame d tz d1 "comment" h1 (by decide)]
    exact hc
  · intro hty
    have hty3 : lookup (hookComment d2) "type" = some (JVal.obj o) := by
      rw [hookComment_frame d2 "type" (by decide),
          hookTo_frame d1 tz d2 "type" h2 (by decide),
          hookFrom_frame d tz d1 "type" h1 (by decide)]
      exact hty
    have hnd3 : (keys (hookComment d2)).Nodup := by
      rw [hk3, hk2, hk1]
      exact hnd
    exact hookType_removes (hookComment d2) d' o h3 hty3 hnd3

/-- The concrete interval record of the decoding claim. -/
def dIntervalRec : Assoc :=
  [("from", JVal.num 1700000000), ("to", JVal.num 1700003600),
   ("comment", JVal.str ""), ("type", JVal.obj [("guid", JVal.str "X")])]

/-- The dict produced by the hook on dIntervalRec with no timezone. -/
def outIntervalRec : Assoc :=
  [("from", JVal.dt 1700000000 none), ("to", JVal.dt 1700003600 none),
   ("comment", JVal.null), ("typeGuid", JVal.str "X")]

/-- C3 witness: the concrete interval record of the claim decodes to a
record with datetime from and to, null comment, typeGuid X, and no type
key remaining. -/
theorem object_hook_fields_witness :
    (keys dIntervalRec).Nodup ∧
    object_hook dIntervalRec none = some outIntervalRec ∧
    lookup outIntervalRec "from" = some (JVal.dt 1700000000 none) ∧
    lookup outIntervalRec "to" = some (JVal.dt 1700003600 none) ∧
    lookup outIntervalRec "comment" = some JVal.null ∧
    lookup outIntervalRec "type" = none ∧
    lookup outIntervalRec "typeGuid" = some (JVal.str "X") :=
  have h := object_hook_fields dIntervalRec none outIntervalRec
    1700000000 1700003600 [("guid", JVal.str "X")] (by decide) (by rfl)
  ⟨by decide, by rfl, h.1 (by rfl), h.2.1 (by rfl), h.2.2.1 (by rfl),
   (h.2.2.2 (by rfl)).1, Eq.trans (h.2.2.2 (by rfl)).2 (by rfl)⟩

/-- A datetime value is timezone-aware exactly when it carries a
timezone. -/
def isAware : JVal → Bool
  | JVal.dt _ (some _) => true
  | _ => false

/-- C3 counterexample: with no timezone derived from the range (the
default), the hook replaces a from field by a naive datetime, so the
replacement is not timezone-aware as the claim states. -/
theorem object_hook_naive_counterexample :
    object_hook [("from", JVal.num 1700000000)] none
      = some [("from", JVal.dt 1700000000 none)] ∧
    isAware (JVal.dt 1700000000 none) = false :=
  ⟨rfl, rfl⟩

/-- C9 as amended: whenever the hook succeeds, every key other than
from, to, comment, type and typeGuid keeps its original value; no key
other than typeGuid can appear, and no key other than type can
disappear.  In-place mutation is modelled at the value level. -/
theorem object_hook_frame (d : Assoc) (tz : Option Int) (d' : Assoc)
    (k : String) (h : object_hook d tz = some d') :
    ((k ≠ "from" ∧ k ≠ "to" ∧ k ≠ "comment" ∧ k ≠ "type" ∧ k ≠ "typeGuid") →
      lookup d' k = lookup d k) ∧
    (k ≠ "typeGuid" → hasKey d' k = true → hasKey d k = true) ∧
    (k ≠ "type" → hasKey d k = true → hasKey d' k = true) := by
  obtain ⟨d1, d2, h1, h2, h3⟩ := object_hook_unpack d tz d' h
  have hk1 := hookFrom_keys d tz d1 h1
  have hk2 := hookTo_keys d1 tz d2 h2
  have hk3 := hookComment_keys d2
  have hmem : ∀ k', hasKey (hookComment d2) k' = hasKey d k' := by
    intro k'
    have e3 : hasKey (hookComment d2) k' = true ↔ hasKey d k' = true := by
      rw [hasKey_iff_mem, hasKey_iff_mem, hk3, hk2, hk1]
    cases hb : hasKey (hookComment d2) k' with
    | false =>
        cases h0 : hasKey d k' with
        | false => rfl
        | true => exact absurd (e3.mpr h0) (by simp [hb])
    | true => exact (e3.mp hb).symm
  refine ⟨?_, ?_, ?_⟩
  · rintro ⟨hf, hto, hc, hty, htg⟩
    rw [hookType_frame (hookComment d2) d' k h3 hty htg,
        hookComment_frame d2 k hc,
        hookTo_frame d1 tz d2 k h2 hto,
        hookFrom_frame d tz d1 k h1 hf]
  · intro htg hk'
    have hx := hookType_hasKey_imp (hookComment d2) d' k h3 htg hk'
    rw [hmem k] at hx
    exact hx
  · intro hty hk'
    refine hookType_hasKey_mono (hookComment d2) d' k h3 hty ?_
    rw [hmem k]
    exact hk'

/-- A concrete record carrying an untouched extra key next to a type
reference. -/
def dFrameRec : Assoc :=
  [("guid", JVal.str "g"), ("duration", JVal.num 60),
   ("type", JVal.obj [("guid", JVal.str "T")])]

/-- The dict produced by the hook on dFrameRec. -/
def outFrameRec : Assoc :=
  [("guid", JVal.str "g"), ("duration", JVal.num 60),
   ("typeGuid", JVal.str "T")]

/-- C9 witness: the duration key survives the hook with its original
value. -/
theorem object_hook_frame_witness :
    object_hook dFrameRec none = some outFrameRec ∧
    lookup outFrameRec "duration" = lookup dFrameRec "duration" ∧
    hasKey dFrameRec "duration" = true ∧
    hasKey outFrameRec "duration" = true :=
  have h := object_hook_frame dFrameRec none outFrameRec "duration" (by rfl)
  ⟨by rfl, h.1 ⟨by decide, by decide, by decide, by decide, by decide⟩,
   by rfl, h.2.2 (by decide) (by rfl)⟩

/-- C9 counterexample: a dict holding both a typeGuid key and a type
key.  The hook overwrites the pre-existing typeGuid value, although
typeGuid is not among the four keys the claim allows to change. -/
theorem object_hook_typeGuid_overwrite_counterexample :
    object_hook [("typeGuid", JVal.num 1),
        ("type", JVal.obj [("guid", JVal.str "X")])] none
      = some [("typeGuid", JVal.str "X")] ∧
    JVal.str "X" ≠ JVal.num 1 :=
  ⟨rfl, fun hx => JVal.noConfusion hx⟩

end ATimeLogger
